import Mathlib

/-!
Verification development for the roaster-bridge repository.

The definitions below are a shallow embedding of the code in `src/` of the
repository (the `src/src/` variant, which is the one the specification's
claims cite): the protocol codec (`Machine.decode_message` and the wire
command table in `src/machine.py`), the command gate (`Machine.send_command`),
the command handler (`src/command_handler.py`), the reconnection backoff
(`src/ble_client.py`), the heartbeat task, and the subscriber set of the
stream server (`src/websocket_server.py`).

Modelling conventions:
* Python `str` values are modelled as `List Char` (bytes arriving on the wire
  are assumed UTF-8 decodable; an undecodable byte string raises inside the
  same `try` block as a parse failure and leaves the state unchanged).
* Python floats are modelled as `ℚ`.  `float(s)` / `int(s)` string parsing is
  modelled on the decimal grammar (optional sign, digits, optional fraction,
  optional exponent); the exotic corners of the Python grammar (`inf`, `nan`,
  digit-group underscores, non-ASCII digits) are outside the model and no
  theorem below depends on them.
* `asyncio` sleeps are pure delays that change no modelled state; they are
  dropped.  A BLE write (`client.write_gatt_char`) is modelled by an oracle
  `WriteOutcome` saying whether the call returns or throws, and each modelled
  operation also returns the number of write attempts it made.
-/

/-- Python `str.strip` whitespace test, restricted to the ASCII whitespace
characters (space, tab, newline, carriage return, vertical tab, form feed). -/
def isSpaceChar (c : Char) : Bool :=
  decide (c.toNat = 32 ∨ c.toNat = 9 ∨ c.toNat = 10 ∨ c.toNat = 13 ∨
          c.toNat = 11 ∨ c.toNat = 12)

/-- ASCII decimal digit test, as used by `float`/`int` parsing. -/
def isDigitChar (c : Char) : Bool :=
  decide (48 ≤ c.toNat ∧ c.toNat ≤ 57)

/-- Numeric value of an ASCII digit character. -/
def digitVal (c : Char) : Nat := c.toNat - 48

/-- The NUL character removed by `.replace("\x00", "")` in `decode_message`. -/
def nullChar : Char := Char.ofNat 0

/-- Python `str.strip()`: drop whitespace from both ends. -/
def pyStrip (cs : List Char) : List Char :=
  ((cs.dropWhile isSpaceChar).reverse.dropWhile isSpaceChar).reverse

/-- Python `str.replace("\x00", "")`: remove every NUL character. -/
def removeNul (cs : List Char) : List Char :=
  cs.filter (fun c => c != nullChar)

/-- Python slice `s[1:-1]`: drop the first and the last character
(empty result when the string has fewer than two characters). -/
def slice1m1 (cs : List Char) : List Char := (cs.drop 1).dropLast

/-- Python `str.split(sep)` for a single-character separator: always returns
at least one (possibly empty) piece. -/
def pySplit (sep : Char) : List Char → List (List Char)
  | [] => [[]]
  | c :: rest =>
    match pySplit sep rest with
    | [] => [[]]
    | h :: t => if c = sep then [] :: h :: t else (c :: h) :: t

/-- Horner evaluation of a big-endian ASCII digit string. -/
def natOfChars (cs : List Char) : Nat :=
  cs.foldl (fun a c => 10 * a + digitVal c) 0

/-- Leading sign of a Python numeric literal: consume one `+` or `-`. -/
def splitSign (cs : List Char) : Int × List Char :=
  match cs with
  | [] => (1, [])
  | c :: r => if c = '+' then (1, r) else if c = '-' then (-1, r) else (1, cs)

/-- Signed value of a nonempty all-digit string; `ValueError` otherwise. -/
def digitsToInt (sgn : Int) (t : List Char) : Option Int :=
  if t ≠ [] ∧ t.all isDigitChar then some (sgn * (natOfChars t : Int)) else none

/-- Python `int(s)` on strings: strip whitespace, optional sign, then a
nonempty run of decimal digits; anything else raises `ValueError` (`none`). -/
def pyInt (cs : List Char) : Option Int :=
  digitsToInt (splitSign (pyStrip cs)).1 (splitSign (pyStrip cs)).2

/-- Exponent part of a Python float literal (after the `e`): optional sign and
a nonempty run of digits. -/
def parseExpDigits (cs : List Char) : Option Int :=
  digitsToInt (splitSign cs).1 (splitSign cs).2

/-- Value `ip . fp` of an integer digit string and a fraction digit string. -/
def ratOfParts (ip fp : List Char) : ℚ :=
  (natOfChars ip : ℚ) + (natOfChars fp : ℚ) / 10 ^ fp.length

/-- Magnitude parse continuation after the decimal point: `ip` the integer
digits, `fp` the fraction digits, `r3` what follows them. -/
def pyFloatFracTail (ip fp r3 : List Char) : Option ℚ :=
  if ip = [] ∧ fp = [] then none
  else if r3 = [] then some (ratOfParts ip fp)
  else if r3.head? = some 'e' ∨ r3.head? = some 'E' then
    (parseExpDigits r3.tail).map (fun ex => ratOfParts ip fp * (10 : ℚ) ^ ex)
  else none

/-- Magnitude parse continuation: `ip` the leading digits, `r1` the rest. -/
def pyFloatTail (ip r1 : List Char) : Option ℚ :=
  if r1 = [] then
    if ip = [] then none else some (natOfChars ip : ℚ)
  else if r1.head? = some '.' then
    pyFloatFracTail ip (r1.tail.takeWhile isDigitChar)
      (r1.tail.dropWhile isDigitChar)
  else if r1.head? = some 'e' ∨ r1.head? = some 'E' then
    if ip = [] then none
    else (parseExpDigits r1.tail).map
      (fun ex => (natOfChars ip : ℚ) * (10 : ℚ) ^ ex)
  else none

/-- Unsigned magnitude of a Python float literal: digits, an optional point
with further digits (at least one digit overall), and an optional exponent. -/
def pyFloatMag (cs : List Char) : Option ℚ :=
  pyFloatTail (cs.takeWhile isDigitChar) (cs.dropWhile isDigitChar)

/-- Python `float(s)` on strings: strip whitespace, optional sign, then an
unsigned decimal magnitude; anything else raises `ValueError` (`none`). -/
def pyFloat (cs : List Char) : Option ℚ :=
  (pyFloatMag (splitSign (pyStrip cs)).2).map
    (fun q => ((splitSign (pyStrip cs)).1 : ℚ) * q)

/-- Mutable attributes of `Machine` (`src/machine.py`, `__init__`).  The
`command_lock` is not represented (all modelled operations run one command at
a time, which is exactly what the lock enforces), and the constant
`command_interval` (0.1) is not either: the rate-limit sleep it controls is a
pure delay that no claim observes. -/
structure MachineState where
  notify_characteristic_uuid : Option (List Char)
  write_characteristic_uuid : Option (List Char)
  bean_temperature : ℚ
  environment_temperature : ℚ
  pid_value : ℚ
  heater_value : ℚ
  fan_value : ℚ
  last_command_time : ℚ
deriving DecidableEq, Repr

/-- The state set up by `Machine.__init__`. -/
def initialMachine : MachineState where
  notify_characteristic_uuid := none
  write_characteristic_uuid := none
  bean_temperature := 0
  environment_temperature := 0
  pid_value := 0
  heater_value := 0
  fan_value := 0
  last_command_time := 0

/-- Cleanup prefix of `Machine.decode_message`:
`data.decode('utf-8').strip().replace("\x00", "").strip()`. -/
def decodeCleanup (data : List Char) : List Char :=
  pyStrip (removeNul (pyStrip data))

/-- Field extraction of `Machine.decode_message`:
`data_str[1:-1]` followed by `.split(',')`. -/
def decodeFields (data : List Char) : List (List Char) :=
  pySplit ',' (slice1m1 (decodeCleanup data))

/-- Body of the `try` block of `Machine.decode_message` once the frame has
been split into exactly four fields.  The assignments happen in program
order (bean, environment, heater, fan); the first failing parse raises and
leaves the later fields untouched — earlier assignments are kept, exactly
as in the source. -/
def applyFields (m : MachineState) (e b h f : List Char) : Bool × MachineState :=
  match pyFloat b with
  | none => (false, m)
  | some bv =>
    let m1 := { m with bean_temperature := bv }
    match pyFloat e with
    | none => (false, m1)
    | some ev =>
      let m2 := { m1 with environment_temperature := ev }
      match pyInt h with
      | none => (false, m2)
      | some hv =>
        let m3 := { m2 with heater_value := (hv : ℚ) }
        match pyInt f with
        | none => (false, m3)
        | some fv => (true, { m3 with fan_value := (fv : ℚ) })

/-- `Machine.decode_message` (`src/machine.py`): returns `True` and the
updated state on success, `False` otherwise (the tuple unpacking of the
split raises when the field count is not exactly four, in which case no
assignment has happened yet). -/
def decode_message (m : MachineState) (data : List Char) : Bool × MachineState :=
  match decodeFields data with
  | [e, b, h, f] => applyFields m e b h f
  | _ => (false, m)

/-- Python `int(x)` on a float: truncation toward zero. -/
def truncQ (q : ℚ) : Int := if q < 0 then ⌈q⌉ else ⌊q⌋

/-- `Machine.get_bean_temperature`. -/
def get_bean_temperature (m : MachineState) : ℚ := m.bean_temperature

/-- `Machine.get_environment_temperature`. -/
def get_environment_temperature (m : MachineState) : ℚ :=
  m.environment_temperature

/-- `Machine.get_heater_value`: `int(self.heater_value)`. -/
def get_heater_value (m : MachineState) : Int := truncQ m.heater_value

/-- `Machine.get_fan_value`: `int(self.fan_value)`. -/
def get_fan_value (m : MachineState) : Int := truncQ m.fan_value

/-! Canonical decimal numerals, used to quantify over the valid frames of the
wire protocol (`[<environment:float>,<bean:float>,<heater:int>,<fan:int>]`). -/

/-- ASCII character of a digit value. -/
def digitChar (d : Nat) : Char := Char.ofNat (48 + d)

/-- Digit characters of `n`, most significant first, by repeated division;
the first argument is fuel (any bound on `n` works, see `renderNat`). -/
def renderNatAux : Nat → Nat → List Char
  | 0, _ => []
  | fuel + 1, n =>
    if n = 0 then [] else renderNatAux fuel (n / 10) ++ [digitChar (n % 10)]

/-- Decimal numeral of a natural number, e.g. `renderNat 75 = ['7', '5']`. -/
def renderNat (n : Nat) : List Char := if n = 0 then ['0'] else renderNatAux n n

/-- Big-endian digit list evaluated as a natural number. -/
def hornerBE (ds : List Nat) : Nat := ds.foldl (fun a d => 10 * a + d) 0

/-- A signed decimal numeral: sign, integer part, and optional fraction
digits (most significant first).  `⟨true, 25, some [5]⟩` renders as `-25.5`. -/
structure Decimal where
  neg : Bool
  intPart : Nat
  frac : Option (List Nat)
deriving DecidableEq, Repr

/-- Fraction digits as a rational in `[0, 1)` (for digits below ten). -/
def fracVal : Option (List Nat) → ℚ
  | none => 0
  | some ds => (hornerBE ds : ℚ) / 10 ^ ds.length

/-- Rational value of a decimal numeral. -/
def Decimal.val (d : Decimal) : ℚ :=
  (if d.neg then -1 else 1) * ((d.intPart : ℚ) + fracVal d.frac)

/-- Characters after the decimal point (with the point), if any. -/
def renderFrac : Option (List Nat) → List Char
  | none => []
  | some ds => '.' :: ds.map digitChar

/-- Text of a decimal numeral. -/
def Decimal.render (d : Decimal) : List Char :=
  (if d.neg then ['-'] else []) ++ renderNat d.intPart ++ renderFrac d.frac

/-- Digits of a decimal numeral are below ten (so that it denotes what it
renders as). -/
def Decimal.Wf (d : Decimal) : Prop := ∀ x ∈ d.frac.getD [], x < 10

instance (d : Decimal) : Decidable d.Wf := by
  unfold Decimal.Wf; infer_instance

/-- A wire frame `[e,b,h,f]` built from two decimal numerals and two natural
numerals, as pushed by the peripheral. -/
def frameChars (e b : Decimal) (h f : Nat) : List Char :=
  '[' :: (e.render ++ ',' :: (b.render ++ ',' :: (renderNat h ++ ',' ::
    (renderNat f ++ [']']))))

/-! The command gate (`Machine.send_command`) and the absolute set commands
(`Machine.set_fan`, `Machine.set_heater`), from `src/machine.py`. -/

/-- Behaviour of the one `client.write_gatt_char` call inside
`send_command`: the transport either accepts the write or throws. -/
inductive WriteOutcome where
  | ok
  | throws
deriving DecidableEq, Repr

/-- Python truthiness of an `Optional[str]` attribute (`None` and the empty
string are falsy), as tested by `if not self.write_characteristic_uuid`. -/
def pyTruthyStrOpt : Option (List Char) → Bool
  | none => false
  | some s => !s.isEmpty

/-- Negative of a Python `str(int)` rendering. -/
def renderInt (v : Int) : List Char :=
  (if v < 0 then ['-'] else []) ++ renderNat v.natAbs

/-- The wire command `IO3,(n)` produced by `SerialCommands.FAN_VAL.replace`. -/
def fan_val_command (v : Int) : List Char :=
  String.toList "IO3," ++ renderInt v

/-- The wire command `OT1,(n)` produced by `SerialCommands.HEATER_VAL.replace`. -/
def heater_val_command (v : Int) : List Char :=
  String.toList "OT1," ++ renderInt v

/-- `Machine.send_command` (`src/machine.py`): guard on the write channel
(Python truthiness), take the lock, sleep off the rate limit (a pure delay),
re-check connectivity, attempt one write, and stamp `last_command_time` on
success only.  Result: the returned boolean, the machine state afterwards,
and the number of write attempts made (the code never retries internally:
a throw is caught, a penalty sleep happens, and `False` is returned).
`now2` is the clock reading taken after a successful write. -/
def send_command (m : MachineState) (connected : Bool) (w : WriteOutcome)
    (now2 : ℚ) (command : List Char) : Bool × MachineState × Nat :=
  if pyTruthyStrOpt m.write_characteristic_uuid = false then (false, m, 0)
  else if connected = false then (false, m, 0)
  else
    match w, command with
    | .ok, _ => (true, { m with last_command_time := now2 }, 1)
    | .throws, _ => (false, m, 1)

/-- `Machine.set_fan`: reject values outside `0..100` before any write,
otherwise send `IO3,(n)` through the command gate. -/
def set_fan (m : MachineState) (connected : Bool) (w : WriteOutcome)
    (now2 : ℚ) (v : Int) : Bool × MachineState × Nat :=
  if ¬(0 ≤ v ∧ v ≤ 100) then (false, m, 0)
  else send_command m connected w now2 (fan_val_command v)

/-- `Machine.set_heater`: reject values outside `0..100` before any write,
otherwise send `OT1,(n)` through the command gate. -/
def set_heater (m : MachineState) (connected : Bool) (w : WriteOutcome)
    (now2 : ℚ) (v : Int) : Bool × MachineState × Nat :=
  if ¬(0 ≤ v ∧ v ≤ 100) then (false, m, 0)
  else send_command m connected w now2 (heater_val_command v)

/-! The command handler (`src/command_handler.py`). -/

/-- The `value_commands` table of `CommandHandler.__init__`. -/
def value_commands : List (String × String) :=
  [("setFan", "set_fan"), ("setHeater", "set_heater"), ("setPID", "set_pid")]

/-- The `simple_commands` table of `CommandHandler.__init__`. -/
def simple_commands : List (String × String) :=
  [("fanUp", "fan_up"), ("fanDown", "fan_down"), ("heaterUp", "heater_up"),
   ("heaterDown", "heater_down"), ("pidOn", "pid_on"), ("pidOff", "pid_off")]

/-- `CommandHandler._is_write_command`. -/
def is_write_command (command : String) : Bool := command != "getData"

/-- Outcome of `CommandHandler.process_command` as seen by the consumer: the
`status` string of the response, and the fire-and-forget task spawned by the
async path, if any (method name and converted value).  Every command of the
`value_commands`/`simple_commands` tables is in `async_commands`, so its
work is dispatched to a background task and the response reports `accepted`
without waiting for the BLE result.  Response `message`/`data` payloads are
not represented. -/
structure CHResponse where
  status : String
  spawned : Option (String × Option Int)
deriving DecidableEq, Repr

/-- `CommandHandler.process_command` (`src/command_handler.py`).
`ble_status` is the status string the handler reads from its BLE client (the
gate at the top rejects write commands when it is not `"Connected"`); the
value, when present, is an integral JSON number, on which the `int`/`float`
conversion of the table succeeds and is the identity. -/
def process_command (ble_status : String) (command : String)
    (value : Option Int) : CHResponse :=
  if is_write_command command = true ∧ ble_status ≠ "Connected" then
    ⟨"error", none⟩
  else if command = "getData" then ⟨"success", none⟩
  else
    match value_commands.lookup command with
    | some mname =>
      match value with
      | none => ⟨"error", none⟩
      | some v => ⟨"accepted", some (mname, some v)⟩
    | none =>
      match simple_commands.lookup command with
      | some mname => ⟨"accepted", some (mname, none)⟩
      | none => ⟨"error", none⟩

/-- Modelled from the spec: `BLEClient.execute_command`, the dispatcher the
command handler calls to run a spawned task, is absent from the repository's
`src/ble_client.py` (only its caller exists); per the specification's design
notes it duck-dispatches the given method name on the BLE client.  The BLE
client's `set_fan`/`set_heater` wrappers (which do exist in
`src/ble_client.py`) first re-check connectivity and then delegate to the
machine methods.  Result as for `send_command`. -/
def run_spawned (m : MachineState) (connected : Bool) (w : WriteOutcome)
    (now2 : ℚ) : Option (String × Option Int) → Bool × MachineState × Nat
  | some ("set_fan", some v) =>
    if connected = false then (false, m, 0) else set_fan m connected w now2 v
  | some ("set_heater", some v) =>
    if connected = false then (false, m, 0) else set_heater m connected w now2 v
  | _ => (false, m, 0)

/-! The reconnection backoff (`BLEClient.run`, `src/ble_client.py`). -/

/-- `self.reconnection_delay` of `BLEClient.__init__`. -/
def reconnection_delay : ℚ := 5

/-- The backoff delay computed at the bottom of `BLEClient.run`:
`min(60, self.reconnection_delay * (1.5 ** min(self.reconnection_attempts, 10)))`. -/
def backoff_delay (failures : Nat) : ℚ :=
  min 60 (reconnection_delay * (3 / 2) ^ min failures 10)

/-! The heartbeat task (`BLEClient._send_heartbeat`, `src/ble_client.py`). -/

/-- The `rate_limiter` object the heartbeat dereferences. -/
structure RateLimiter where
  last_command_time : ℚ

/-- The attribute lookup `self.machine.rate_limiter`: `Machine`
(`src/machine.py`) defines `last_command_time` directly and has no
`rate_limiter` attribute, so the lookup raises `AttributeError`; modelled as
`none` for every machine state. -/
def machine_rate_limiter (_ : MachineState) : Option RateLimiter := none

/-- What one wake of the heartbeat loop does. -/
inductive HeartbeatStep where
  | exitLoop
  | terminateSession (reason : String)
  | sendHeartbeat (fanValue : Int)
  | idle
deriving DecidableEq, Repr

/-- One wake of `BLEClient._send_heartbeat` (15 time units after the previous
one): exit if the loop guard `self.is_connected()` fails; otherwise read
`self.machine.rate_limiter.last_command_time` — an exception here is caught
by the surrounding handler, which sets `self.connection_event`, terminating
the session; otherwise re-assert the fan value if more than 20 time units
have passed since the last command. -/
def heartbeat_step (connected : Bool) (m : MachineState) (now : ℚ) :
    HeartbeatStep :=
  if connected = false then .exitLoop
  else
    match machine_rate_limiter m with
    | none => .terminateSession "AttributeError"
    | some rl =>
      if 20 < now - rl.last_command_time ∧ connected = true then
        .sendHeartbeat (get_fan_value m)
      else .idle

/-! The subscriber set of the stream server (`src/websocket_server.py`). -/

/-- One consumer channel: an identity and whether a send to it currently
fails (its connection has closed). -/
structure Subscriber where
  sid : Nat
  sendFails : Bool
deriving DecidableEq, Repr

/-- One `client.send(message)` task: delivery succeeds or raises
`ConnectionClosed`. -/
def sendTo (c : Subscriber) (_ : String) : Except String Unit :=
  if c.sendFails then Except.error "ConnectionClosed" else Except.ok ()

/-- `WebSocketServer.broadcast`: return early when there are no clients,
otherwise run one send task per client and gather them with
`return_exceptions=True` (each task's outcome is collected, exceptions as
values, so no failure propagates or interrupts the others).  Returns the
gathered outcomes in subscriber order and the subscriber set afterwards —
which the method never mutates. -/
def broadcast (clients : List Subscriber) (message : String) :
    List (Except String Unit) × List Subscriber :=
  if clients.isEmpty then ([], clients)
  else (clients.map (fun c => sendTo c message), clients)

/-- Python `set.add` on the subscriber set (`self.connected_clients.add`). -/
def set_add (s : List Nat) (x : Nat) : List Nat := if x ∈ s then s else x :: s

/-- Python `set.remove` on the subscriber set: removes a present element,
raises `KeyError` on an absent one (it is `remove`, not `discard`). -/
def set_remove (s : List Nat) (x : Nat) : Except String (List Nat) :=
  if x ∈ s then Except.ok (s.erase x) else Except.error "KeyError"

/-- The `finally` block of `WebSocketServer.handler`:
`self.connected_clients.remove(websocket)`. -/
def handler_cleanup (clients : List Nat) (ws : Nat) : Except String (List Nat) :=
  set_remove clients ws

/-! Channel discovery (`Machine.discover_characteristics`, `src/machine.py`). -/

/-- One BLE characteristic: its UUID and its property strings. -/
structure BleChar where
  uuid : List Char
  props : List (List Char)

/-- The body of the characteristic loop: adopt the UUID for the notify slot
when the characteristic advertises `"notify"` and the slot is falsy (unset),
then likewise for the write slot (`"write" in char.properties` is list
membership). -/
def discover_step (m : MachineState) (c : BleChar) : MachineState :=
  let m1 :=
    if String.toList "notify" ∈ c.props ∧
        pyTruthyStrOpt m.notify_characteristic_uuid = false then
      { m with notify_characteristic_uuid := some c.uuid }
    else m
  if String.toList "write" ∈ c.props ∧
      pyTruthyStrOpt m1.write_characteristic_uuid = false then
    { m1 with write_characteristic_uuid := some c.uuid }
  else m1

/-- `Machine.discover_characteristics`: fold the loop body over every
characteristic of every service (flattened, in enumeration order) and report
whether both slots are non-`None` afterwards. -/
def discover_characteristics (m : MachineState) (chars : List BleChar) :
    Bool × MachineState :=
  let m2 := chars.foldl discover_step m
  (m2.notify_characteristic_uuid.isSome && m2.write_characteristic_uuid.isSome,
   m2)

/-! Character-class facts. -/

theorem digit_ne {c : Char} (h : isDigitChar c = true) {x : Char}
    (hx : isDigitChar x = false) : c ≠ x := by
  intro he
  subst he
  rw [h] at hx
  cases hx

theorem digit_not_space {c : Char} (h : isDigitChar c = true) :
    isSpaceChar c = false := by
  simp only [isDigitChar, decide_eq_true_eq] at h
  simp only [isSpaceChar, decide_eq_false_iff_not]
  omega

/-! List manipulation facts used to evaluate the cleanup, split and parse
steps of the codec on structured inputs. -/

theorem dropWhile_eq_self_of_head {p : Char → Bool} {c : Char}
    (cs : List Char) (h : p c = false) : (c :: cs).dropWhile p = c :: cs := by
  simp [List.dropWhile_cons, h]

theorem dropWhile_eq_self_of_all {p : Char → Bool} {cs : List Char}
    (h : ∀ c ∈ cs, p c = false) : cs.dropWhile p = cs := by
  cases cs with
  | nil => rfl
  | cons c cs => exact dropWhile_eq_self_of_head cs (h c (by simp))

theorem pyStrip_eq_self {cs : List Char}
    (h : ∀ c ∈ cs, isSpaceChar c = false) : pyStrip cs = cs := by
  unfold pyStrip
  rw [dropWhile_eq_self_of_all h,
    dropWhile_eq_self_of_all (fun c hc => h c (List.mem_reverse.mp hc)),
    List.reverse_reverse]

theorem removeNul_eq_self {cs : List Char} (h : ∀ c ∈ cs, c ≠ nullChar) :
    removeNul cs = cs := by
  unfold removeNul
  apply List.filter_eq_self.mpr
  intro a ha
  simpa using h a ha

theorem decodeCleanup_eq_self {cs : List Char}
    (hs : ∀ c ∈ cs, isSpaceChar c = false) (hn : ∀ c ∈ cs, c ≠ nullChar) :
    decodeCleanup cs = cs := by
  unfold decodeCleanup
  rw [pyStrip_eq_self hs, removeNul_eq_self hn, pyStrip_eq_self hs]

theorem pyStrip_sandwich {c1 c2 : Char} (mid : List Char)
    (h1 : isSpaceChar c1 = false) (h2 : isSpaceChar c2 = false) :
    pyStrip (c1 :: (mid ++ [c2])) = c1 :: (mid ++ [c2]) := by
  unfold pyStrip
  rw [dropWhile_eq_self_of_head _ h1]
  have hrev : (c1 :: (mid ++ [c2])).reverse = c2 :: (mid.reverse ++ [c1]) := by
    simp
  rw [hrev, dropWhile_eq_self_of_head _ h2, ← hrev, List.reverse_reverse]

theorem removeNul_sandwich {c1 c2 : Char} (mid : List Char)
    (h1 : c1 ≠ nullChar) (h2 : c2 ≠ nullChar) :
    removeNul (c1 :: (mid ++ [c2])) = c1 :: (removeNul mid ++ [c2]) := by
  simp [removeNul, List.filter_append, List.filter_cons, h1, h2]

theorem decodeCleanup_sandwich {c1 c2 : Char} (mid : List Char)
    (h1 : isSpaceChar c1 = false) (h2 : c1 ≠ nullChar)
    (h3 : isSpaceChar c2 = false) (h4 : c2 ≠ nullChar) :
    decodeCleanup (c1 :: (mid ++ [c2])) = c1 :: (removeNul mid ++ [c2]) := by
  unfold decodeCleanup
  rw [pyStrip_sandwich mid h1 h3, removeNul_sandwich mid h2 h4,
    pyStrip_sandwich _ h1 h3]

theorem slice1m1_sandwich (c1 c2 : Char) (mid : List Char) :
    slice1m1 (c1 :: (mid ++ [c2])) = mid := by
  simp [slice1m1, List.dropLast_concat]

theorem pySplit_ne_nil (sep : Char) (cs : List Char) : pySplit sep cs ≠ [] := by
  cases cs with
  | nil => simp [pySplit]
  | cons c rest =>
    simp only [pySplit]
    cases h : pySplit sep rest with
    | nil => simp
    | cons a t => dsimp; split <;> simp

theorem pySplit_no_sep {sep : Char} {cs : List Char} (h : sep ∉ cs) :
    pySplit sep cs = [cs] := by
  induction cs with
  | nil => rfl
  | cons c rest ih =>
    have hc : c ≠ sep := by rintro rfl; exact h (by simp)
    have hrest : sep ∉ rest := fun hm => h (by simp [hm])
    simp only [pySplit, ih hrest]
    rw [if_neg hc]

theorem pySplit_append {sep : Char} {xs : List Char} (ys : List Char)
    (h : sep ∉ xs) : pySplit sep (xs ++ sep :: ys) = xs :: pySplit sep ys := by
  induction xs with
  | nil =>
    simp only [List.nil_append, pySplit]
    cases hys : pySplit sep ys with
    | nil => exact absurd hys (pySplit_ne_nil sep ys)
    | cons a t => simp
  | cons x xs ih =>
    have hx : x ≠ sep := by rintro rfl; exact h (by simp)
    have hxs : sep ∉ xs := fun hm => h (by simp [hm])
    simp only [List.cons_append, pySplit, List.append_eq, ih hxs]
    rw [if_neg hx]

theorem takeWhile_append_of_all {p : Char → Bool} {xs : List Char}
    (ys : List Char) (h : ∀ x ∈ xs, p x = true) :
    (xs ++ ys).takeWhile p = xs ++ ys.takeWhile p := by
  induction xs with
  | nil => simp
  | cons x xs ih =>
    simp [List.takeWhile_cons, h x (by simp),
      ih (fun a ha => h a (by simp [ha]))]

theorem dropWhile_append_of_all {p : Char → Bool} {xs : List Char}
    (ys : List Char) (h : ∀ x ∈ xs, p x = true) :
    (xs ++ ys).dropWhile p = ys.dropWhile p := by
  induction xs with
  | nil => simp
  | cons x xs ih =>
    simp [List.dropWhile_cons, h x (by simp),
      ih (fun a ha => h a (by simp [ha]))]

theorem takeWhile_eq_self_of_all {p : Char → Bool} {xs : List Char}
    (h : ∀ x ∈ xs, p x = true) : xs.takeWhile p = xs := by
  simpa using takeWhile_append_of_all [] h

theorem dropWhile_eq_nil_of_all {p : Char → Bool} {xs : List Char}
    (h : ∀ x ∈ xs, p x = true) : xs.dropWhile p = [] := by
  simpa using dropWhile_append_of_all [] h

/-! Numeral rendering parses back to the same value. -/

theorem natOfChars_append_digit (xs : List Char) (c : Char) :
    natOfChars (xs ++ [c]) = 10 * natOfChars xs + digitVal c := by
  simp [natOfChars, List.foldl_append]

theorem digitVal_digitChar : ∀ d, d < 10 → digitVal (digitChar d) = d := by
  decide

theorem isDigitChar_digitChar : ∀ d, d < 10 → isDigitChar (digitChar d) = true := by
  decide

theorem renderNatAux_spec : ∀ fuel n, n ≤ fuel →
    natOfChars (renderNatAux fuel n) = n ∧
      ∀ c ∈ renderNatAux fuel n, isDigitChar c = true := by
  intro fuel
  induction fuel with
  | zero =>
    intro n hn
    have h0 : n = 0 := Nat.le_zero.mp hn
    subst h0
    exact ⟨rfl, by simp [renderNatAux]⟩
  | succ fuel ih =>
    intro n hn
    by_cases h0 : n = 0
    · subst h0
      exact ⟨rfl, by simp [renderNatAux]⟩
    · have hdiv : n / 10 ≤ fuel := by
        have := Nat.div_lt_self (Nat.pos_of_ne_zero h0) (by norm_num : 1 < 10)
        omega
      obtain ⟨ihv, ihd⟩ := ih (n / 10) hdiv
      have hmod : n % 10 < 10 := Nat.mod_lt _ (by norm_num)
      have hstep : renderNatAux (fuel + 1) n =
          renderNatAux fuel (n / 10) ++ [digitChar (n % 10)] := by
        rw [renderNatAux.eq_def]
        exact if_neg h0
      constructor
      · rw [hstep, natOfChars_append_digit, ihv, digitVal_digitChar _ hmod]
        omega
      · intro c hc
        rw [hstep] at hc
        rcases List.mem_append.mp hc with hc | hc
        · exact ihd c hc
        · have hcc : c = digitChar (n % 10) := by simpa using hc
          subst hcc
          exact isDigitChar_digitChar _ hmod

theorem natOfChars_renderNat (n : Nat) : natOfChars (renderNat n) = n := by
  unfold renderNat
  split
  · next h => rw [h]; decide
  · exact (renderNatAux_spec n n le_rfl).1

theorem renderNat_all_digits (n : Nat) :
    ∀ c ∈ renderNat n, isDigitChar c = true := by
  unfold renderNat
  split
  · intro c hc
    have hcc : c = '0' := by simpa using hc
    subst hcc
    decide
  · exact (renderNatAux_spec n n le_rfl).2

theorem renderNat_ne_nil (n : Nat) : renderNat n ≠ [] := by
  unfold renderNat
  split
  · simp
  · next h =>
    cases n with
    | zero => exact absurd rfl h
    | succ k =>
      have hstep : renderNatAux (k + 1) (k + 1) =
          renderNatAux k ((k + 1) / 10) ++ [digitChar ((k + 1) % 10)] := by
        rw [renderNatAux.eq_def]
        exact if_neg h
      rw [hstep]
      simp

theorem renderNat_no_comma (n : Nat) : ',' ∉ renderNat n := fun hc =>
  absurd (renderNat_all_digits n ',' hc) (by decide)

theorem foldl_digits (ds : List Nat) : ∀ a, (∀ d ∈ ds, d < 10) →
    List.foldl (fun a c => 10 * a + digitVal c) a (ds.map digitChar) =
      List.foldl (fun a d => 10 * a + d) a ds := by
  induction ds with
  | nil => intro a _; rfl
  | cons d ds ih =>
    intro a h
    simp only [List.map_cons, List.foldl_cons]
    rw [digitVal_digitChar d (h d (by simp)),
      ih _ (fun x hx => h x (by simp [hx]))]

theorem natOfChars_map_digitChar {ds : List Nat} (h : ∀ d ∈ ds, d < 10) :
    natOfChars (ds.map digitChar) = hornerBE ds := foldl_digits ds 0 h

theorem map_digitChar_all_digits {ds : List Nat} (h : ∀ d ∈ ds, d < 10) :
    ∀ c ∈ ds.map digitChar, isDigitChar c = true := by
  intro c hc
  obtain ⟨d, hd, rfl⟩ := List.mem_map.mp hc
  exact isDigitChar_digitChar d (h d hd)

/-! Parsing the rendered numerals. -/

theorem splitSign_cons_of_ne {c : Char} (cs : List Char) (h1 : c ≠ '+')
    (h2 : c ≠ '-') : splitSign (c :: cs) = (1, c :: cs) := by
  simp [splitSign, h1, h2]

theorem splitSign_digit_head {cs : List Char} (hne : cs ≠ [])
    (h : ∀ c ∈ cs, isDigitChar c = true) : splitSign cs = (1, cs) := by
  obtain ⟨c, t, rfl⟩ := List.exists_cons_of_ne_nil hne
  have hc := h c (by simp)
  exact splitSign_cons_of_ne t (digit_ne hc (by decide)) (digit_ne hc (by decide))

theorem digitsToInt_all {sgn : Int} {t : List Char} (hne : t ≠ [])
    (h : ∀ c ∈ t, isDigitChar c = true) :
    digitsToInt sgn t = some (sgn * (natOfChars t : Int)) := by
  unfold digitsToInt
  rw [if_pos ⟨hne, List.all_eq_true.mpr h⟩]

theorem pyInt_renderNat (n : Nat) : pyInt (renderNat n) = some (n : Int) := by
  have hd := renderNat_all_digits n
  have hs : pyStrip (renderNat n) = renderNat n :=
    pyStrip_eq_self (fun c hc => digit_not_space (hd c hc))
  simp only [pyInt, hs, splitSign_digit_head (renderNat_ne_nil n) hd]
  rw [digitsToInt_all (renderNat_ne_nil n) hd, natOfChars_renderNat, one_mul]

/-! Parsing a rendered decimal numeral. -/

theorem pyFloatMag_render (n : Nat) (fr : Option (List Nat))
    (hf : ∀ x ∈ fr.getD [], x < 10) :
    pyFloatMag (renderNat n ++ renderFrac fr) = some ((n : ℚ) + fracVal fr) := by
  have hd := renderNat_all_digits n
  cases fr with
  | none =>
    simp only [renderFrac, List.append_nil, fracVal]
    unfold pyFloatMag
    rw [takeWhile_eq_self_of_all hd, dropWhile_eq_nil_of_all hd]
    unfold pyFloatTail
    rw [if_pos rfl, if_neg (renderNat_ne_nil n), natOfChars_renderNat]
    norm_num
  | some ds =>
    have hds : ∀ d ∈ ds, d < 10 := by simpa using hf
    have hmd := map_digitChar_all_digits hds
    have hdot : isDigitChar '.' = false := by decide
    simp only [renderFrac]
    unfold pyFloatMag
    rw [takeWhile_append_of_all _ hd, dropWhile_append_of_all _ hd,
      List.takeWhile_cons, List.dropWhile_cons, hdot]
    simp only [Bool.false_eq_true, if_false, List.append_nil]
    unfold pyFloatTail
    rw [if_neg (by simp), if_pos (by simp)]
    simp only [List.tail_cons]
    rw [takeWhile_eq_self_of_all hmd, dropWhile_eq_nil_of_all hmd]
    unfold pyFloatFracTail
    rw [if_neg (by rintro ⟨ha, _⟩; exact renderNat_ne_nil n ha), if_pos rfl]
    unfold ratOfParts
    rw [natOfChars_renderNat, natOfChars_map_digitChar hds, List.length_map]
    simp [fracVal]

theorem render_char_class {d : Decimal} (h : d.Wf) :
    ∀ c ∈ d.render, isDigitChar c = true ∨ c = '-' ∨ c = '.' := by
  intro c hc
  unfold Decimal.render at hc
  rcases List.mem_append.mp hc with hc | hc
  · rcases List.mem_append.mp hc with hc | hc
    · cases hneg : d.neg with
      | true =>
        rw [hneg] at hc
        simp only [if_true] at hc
        right; left
        simpa using hc
      | false =>
        rw [hneg] at hc
        simp at hc
    · left; exact renderNat_all_digits _ c hc
  · cases hfr : d.frac with
      | none => rw [hfr] at hc; simp [renderFrac] at hc
      | some ds =>
        rw [hfr] at hc
        simp only [renderFrac, List.mem_cons] at hc
        rcases hc with rfl | hc
        · right; right; rfl
        · left
          exact map_digitChar_all_digits (by simpa [Decimal.Wf, hfr] using h) c hc

theorem render_not_space {d : Decimal} (h : d.Wf) :
    ∀ c ∈ d.render, isSpaceChar c = false := by
  intro c hc
  rcases render_char_class h c hc with h1 | rfl | rfl
  · exact digit_not_space h1
  · decide
  · decide

theorem render_not_nul {d : Decimal} (h : d.Wf) :
    ∀ c ∈ d.render, c ≠ nullChar := by
  intro c hc
  rcases render_char_class h c hc with h1 | rfl | rfl
  · exact digit_ne h1 (by decide)
  · decide
  · decide

theorem render_no_comma {d : Decimal} (h : d.Wf) : ',' ∉ d.render := by
  intro hc
  rcases render_char_class h ',' hc with h1 | he | he
  · exact absurd h1 (by decide)
  · exact absurd he (by decide)
  · exact absurd he (by decide)

theorem splitSign_append_digits {xs : List Char} (ys : List Char)
    (hne : xs ≠ []) (h : ∀ c ∈ xs, isDigitChar c = true) :
    splitSign (xs ++ ys) = (1, xs ++ ys) := by
  obtain ⟨c, t, rfl⟩ := List.exists_cons_of_ne_nil hne
  have hc := h c (by simp)
  exact splitSign_cons_of_ne _ (digit_ne hc (by decide)) (digit_ne hc (by decide))

theorem pyFloat_render {d : Decimal} (h : d.Wf) :
    pyFloat d.render = some d.val := by
  have hs : pyStrip d.render = d.render := pyStrip_eq_self (render_not_space h)
  unfold pyFloat
  rw [hs]
  cases hneg : d.neg with
  | true =>
    have hr : d.render = '-' :: (renderNat d.intPart ++ renderFrac d.frac) := by
      unfold Decimal.render
      rw [hneg]
      simp
    rw [hr]
    have hsplit : splitSign ('-' :: (renderNat d.intPart ++ renderFrac d.frac)) =
        (-1, renderNat d.intPart ++ renderFrac d.frac) := by
      simp [splitSign]
    rw [hsplit]
    rw [pyFloatMag_render d.intPart d.frac h]
    unfold Decimal.val
    rw [hneg]
    simp
  | false =>
    have hr : d.render = renderNat d.intPart ++ renderFrac d.frac := by
      unfold Decimal.render
      rw [hneg]
      simp
    rw [hr]
    rw [splitSign_append_digits _ (renderNat_ne_nil d.intPart)
      (renderNat_all_digits d.intPart)]
    rw [pyFloatMag_render d.intPart d.frac h]
    unfold Decimal.val
    rw [hneg]
    simp

/-! Decomposing a well-formed frame. -/

theorem frame_shape (e b : Decimal) (h f : Nat) :
    frameChars e b h f =
      '[' :: ((e.render ++ ',' :: (b.render ++ ',' ::
        (renderNat h ++ ',' :: renderNat f))) ++ [']']) := by
  simp [frameChars]

theorem frame_char_class (e b : Decimal) (h f : Nat) (he : e.Wf) (hb : b.Wf) :
    ∀ c ∈ frameChars e b h f, isSpaceChar c = false ∧ c ≠ nullChar := by
  intro c hc
  simp only [frameChars, List.mem_cons, List.mem_append] at hc
  rcases hc with rfl | hc | rfl | hc | rfl | hc | rfl | hc | hc
  · exact ⟨by decide, by decide⟩
  · exact ⟨render_not_space he c hc, render_not_nul he c hc⟩
  · exact ⟨by decide, by decide⟩
  · exact ⟨render_not_space hb c hc, render_not_nul hb c hc⟩
  · exact ⟨by decide, by decide⟩
  · have hd := renderNat_all_digits h c hc
    exact ⟨digit_not_space hd, digit_ne hd (by decide)⟩
  · exact ⟨by decide, by decide⟩
  · have hd := renderNat_all_digits f c hc
    exact ⟨digit_not_space hd, digit_ne hd (by decide)⟩
  · have hcc : c = ']' := by simpa using hc
    subst hcc
    exact ⟨by decide, by decide⟩

theorem decodeFields_frame (e b : Decimal) (h f : Nat) (he : e.Wf)
    (hb : b.Wf) :
    decodeFields (frameChars e b h f) =
      [e.render, b.render, renderNat h, renderNat f] := by
  have hclean : decodeCleanup (frameChars e b h f) = frameChars e b h f :=
    decodeCleanup_eq_self
      (fun c hc => (frame_char_class e b h f he hb c hc).1)
      (fun c hc => (frame_char_class e b h f he hb c hc).2)
  unfold decodeFields
  rw [hclean, frame_shape, slice1m1_sandwich]
  rw [pySplit_append _ (render_no_comma he), pySplit_append _ (render_no_comma hb),
    pySplit_append _ (renderNat_no_comma h), pySplit_no_sep (renderNat_no_comma f)]

theorem truncQ_intCast (z : Int) : truncQ (z : ℚ) = z := by
  unfold truncQ
  split
  · exact Int.ceil_intCast z
  · exact Int.floor_intCast z

/-! The claims. -/

/-- C1: for every valid frame `[e,b,h,f]` with `e` and `b` real-valued
numerals and `h` and `f` integer numerals in `[0, 100]`,
`Machine.decode_message` returns success, and afterwards the getters return
exactly `e`, `b`, `h` and `f`. -/
theorem C1_decode_valid_frame (m : MachineState) (e b : Decimal) (h f : Nat)
    (he : e.Wf) (hb : b.Wf) (hh : h ≤ 100) (hf : f ≤ 100) :
    (decode_message m (frameChars e b h f)).1 = true ∧
      get_environment_temperature (decode_message m (frameChars e b h f)).2 =
        e.val ∧
      get_bean_temperature (decode_message m (frameChars e b h f)).2 = b.val ∧
      get_heater_value (decode_message m (frameChars e b h f)).2 = (h : Int) ∧
      get_fan_value (decode_message m (frameChars e b h f)).2 = (f : Int) := by
  have hres : decode_message m (frameChars e b h f) =
      (true, { m with bean_temperature := b.val,
                      environment_temperature := e.val,
                      heater_value := ((h : Int) : ℚ),
                      fan_value := ((f : Int) : ℚ) }) := by
    unfold decode_message
    rw [decodeFields_frame e b h f he hb]
    show applyFields m e.render b.render (renderNat h) (renderNat f) = _
    unfold applyFields
    rw [pyFloat_render hb, pyFloat_render he, pyInt_renderNat h,
      pyInt_renderNat f]
  rw [hres]
  exact ⟨rfl, rfl, rfl, truncQ_intCast _, truncQ_intCast _⟩

/-- C1 witness: the frame `[25.5,100.2,50,75]` against the initial state. -/
theorem C1_witness :
    (decode_message initialMachine
      (frameChars ⟨false, 25, some [5]⟩ ⟨false, 100, some [2]⟩ 50 75)).1 =
        true ∧
      get_environment_temperature (decode_message initialMachine
        (frameChars ⟨false, 25, some [5]⟩ ⟨false, 100, some [2]⟩ 50 75)).2 =
        Decimal.val ⟨false, 25, some [5]⟩ ∧
      get_bean_temperature (decode_message initialMachine
        (frameChars ⟨false, 25, some [5]⟩ ⟨false, 100, some [2]⟩ 50 75)).2 =
        Decimal.val ⟨false, 100, some [2]⟩ ∧
      get_heater_value (decode_message initialMachine
        (frameChars ⟨false, 25, some [5]⟩ ⟨false, 100, some [2]⟩ 50 75)).2 =
        (50 : Int) ∧
      get_fan_value (decode_message initialMachine
        (frameChars ⟨false, 25, some [5]⟩ ⟨false, 100, some [2]⟩ 50 75)).2 =
        (75 : Int) :=
  C1_decode_valid_frame initialMachine ⟨false, 25, some [5]⟩
    ⟨false, 100, some [2]⟩ 50 75 (by decide) (by decide) (by decide) (by decide)

/-- C2 counterexample: the malformed frame `[x,2.0,3,4]` makes
`decode_message` fail, yet the bean temperature is 2.0 afterwards where it
was 0.0 before — the partial update of the failing decode is kept, contrary
to the claim that every field is exactly what it was before the call. -/
theorem C2_counterexample :
    (decode_message initialMachine (String.toList "[x,2.0,3,4]")).1 = false ∧
      (decode_message initialMachine
        (String.toList "[x,2.0,3,4]")).2.bean_temperature = 2 ∧
      initialMachine.bean_temperature = 0 := by
  have hfields : decodeFields (String.toList "[x,2.0,3,4]") =
      [String.toList "x", String.toList "2.0", String.toList "3",
        String.toList "4"] := by decide
  have h20 : String.toList "2.0" = Decimal.render ⟨false, 2, some [0]⟩ := by
    decide
  have hb : pyFloat (String.toList "2.0") = some 2 := by
    rw [h20, pyFloat_render (by decide)]
    norm_num [Decimal.val, fracVal, hornerBE]
  have hx : pyFloat (String.toList "x") = none := by decide
  have hres : decode_message initialMachine (String.toList "[x,2.0,3,4]") =
      (false, { initialMachine with bean_temperature := 2 }) := by
    unfold decode_message
    rw [hfields]
    show applyFields initialMachine (String.toList "x") (String.toList "2.0")
      (String.toList "3") (String.toList "4") = _
    unfold applyFields
    rw [hb, hx]
  refine ⟨by decide, ?_, rfl⟩
  rw [hres]

/-- C2 (amended): on every frame on which `decode_message` fails, it returns
failure and the machine's fan value, PID value, last-command time and channel
identifiers are unchanged; the whole state is unchanged whenever the frame
does not split into exactly four fields, or its bean-temperature field (the
first one assigned) fails to parse.  Fields parsed before the first failing
field, however, keep their new values (see the counterexample): the
assignments run in program order and the failing parse aborts between them. -/
theorem C2_decode_failure_behavior (m : MachineState) (data : List Char)
    (hfail : (decode_message m data).1 = false) :
    ((decode_message m data).2.fan_value = m.fan_value ∧
      (decode_message m data).2.pid_value = m.pid_value ∧
      (decode_message m data).2.last_command_time = m.last_command_time ∧
      (decode_message m data).2.notify_characteristic_uuid =
        m.notify_characteristic_uuid ∧
      (decode_message m data).2.write_characteristic_uuid =
        m.write_characteristic_uuid) ∧
    ((decodeFields data).length ≠ 4 → decode_message m data = (false, m)) ∧
    (∀ e b rest, decodeFields data = e :: b :: rest → pyFloat b = none →
      decode_message m data = (false, m)) := by
  rcases hds : decodeFields data with - | ⟨a, - | ⟨b2, - | ⟨c2, - | ⟨d2, - | ⟨x, t⟩⟩⟩⟩⟩
  case nil =>
    have hdm : decode_message m data = (false, m) := by
      unfold decode_message
      rw [hds]
    refine ⟨by rw [hdm]; exact ⟨rfl, rfl, rfl, rfl, rfl⟩, fun _ => hdm, ?_⟩
    intro e b rest heq _
    exact absurd heq (by simp)
  case cons.nil =>
    have hdm : decode_message m data = (false, m) := by
      unfold decode_message
      rw [hds]
    refine ⟨by rw [hdm]; exact ⟨rfl, rfl, rfl, rfl, rfl⟩, fun _ => hdm, ?_⟩
    intro e b rest heq _
    exact absurd heq (by simp)
  case cons.cons.nil =>
    have hdm : decode_message m data = (false, m) := by
      unfold decode_message
      rw [hds]
    exact ⟨by rw [hdm]; exact ⟨rfl, rfl, rfl, rfl, rfl⟩, fun _ => hdm,
      fun _ _ _ _ _ => hdm⟩
  case cons.cons.cons.nil =>
    have hdm : decode_message m data = (false, m) := by
      unfold decode_message
      rw [hds]
    exact ⟨by rw [hdm]; exact ⟨rfl, rfl, rfl, rfl, rfl⟩, fun _ => hdm,
      fun _ _ _ _ _ => hdm⟩
  case cons.cons.cons.cons.cons =>
    have hdm : decode_message m data = (false, m) := by
      unfold decode_message
      rw [hds]
    exact ⟨by rw [hdm]; exact ⟨rfl, rfl, rfl, rfl, rfl⟩, fun _ => hdm,
      fun _ _ _ _ _ => hdm⟩
  case cons.cons.cons.cons.nil =>
    have hdm : decode_message m data = applyFields m a b2 c2 d2 := by
      unfold decode_message
      rw [hds]
    cases hb2 : pyFloat b2 with
    | none =>
      have hres : decode_message m data = (false, m) := by
        rw [hdm]
        unfold applyFields
        rw [hb2]
      exact ⟨by rw [hres]; exact ⟨rfl, rfl, rfl, rfl, rfl⟩,
        fun hlen => absurd rfl hlen, fun _ _ _ _ _ => hres⟩
    | some bv =>
      have hbcontra : ∀ (e b : List Char) (rest : List (List Char)),
          [a, b2, c2, d2] = e :: b :: rest →
          pyFloat b = none → decode_message m data = (false, m) := by
        intro e b rest heq hbn
        injection heq with h1 heq2
        injection heq2 with h2 heq3
        subst h2
        rw [hb2] at hbn
        cases hbn
      cases he2 : pyFloat a with
      | none =>
        have hres : decode_message m data =
            (false, { m with bean_temperature := bv }) := by
          rw [hdm]
          unfold applyFields
          rw [hb2, he2]
        exact ⟨by rw [hres]; exact ⟨rfl, rfl, rfl, rfl, rfl⟩,
          fun hlen => absurd rfl hlen, hbcontra⟩
      | some ev =>
        cases hc2 : pyInt c2 with
        | none =>
          have hres : decode_message m data =
              (false, { m with bean_temperature := bv,
                               environment_temperature := ev }) := by
            rw [hdm]
            unfold applyFields
            rw [hb2, he2, hc2]
          exact ⟨by rw [hres]; exact ⟨rfl, rfl, rfl, rfl, rfl⟩,
            fun hlen => absurd rfl hlen, hbcontra⟩
        | some hv =>
          cases hd2 : pyInt d2 with
          | none =>
            have hres : decode_message m data =
                (false, { m with bean_temperature := bv,
                                 environment_temperature := ev,
                                 heater_value := (hv : ℚ) }) := by
              rw [hdm]
              unfold applyFields
              rw [hb2, he2, hc2, hd2]
            exact ⟨by rw [hres]; exact ⟨rfl, rfl, rfl, rfl, rfl⟩,
              fun hlen => absurd rfl hlen, hbcontra⟩
          | some fv =>
            have hres : (decode_message m data).1 = true := by
              rw [hdm]
              unfold applyFields
              rw [hb2, he2, hc2, hd2]
            rw [hres] at hfail
            cases hfail

/-- C2 witness: the frame `[1,x,3,4]`, whose bean-temperature field cannot
parse, fails with the state fully unchanged. -/
theorem C2_witness :
    (((decode_message initialMachine (String.toList "[1,x,3,4]")).2.fan_value =
        initialMachine.fan_value ∧
      (decode_message initialMachine
        (String.toList "[1,x,3,4]")).2.pid_value = initialMachine.pid_value ∧
      (decode_message initialMachine
        (String.toList "[1,x,3,4]")).2.last_command_time =
        initialMachine.last_command_time ∧
      (decode_message initialMachine
        (String.toList "[1,x,3,4]")).2.notify_characteristic_uuid =
        initialMachine.notify_characteristic_uuid ∧
      (decode_message initialMachine
        (String.toList "[1,x,3,4]")).2.write_characteristic_uuid =
        initialMachine.write_characteristic_uuid) ∧
    ((decodeFields (String.toList "[1,x,3,4]")).length ≠ 4 →
      decode_message initialMachine (String.toList "[1,x,3,4]") =
        (false, initialMachine)) ∧
    (∀ e b rest, decodeFields (String.toList "[1,x,3,4]") = e :: b :: rest →
      pyFloat b = none →
      decode_message initialMachine (String.toList "[1,x,3,4]") =
        (false, initialMachine))) :=
  C2_decode_failure_behavior initialMachine (String.toList "[1,x,3,4]")
    (by decide)

/-- C3 counterexample: the frame `(25.5,100.2,50,75)` has no bracket
delimiters at all (it opens with `(`), yet `decode_message` succeeds —
the code never checks for `[`/`]`, it strips the first and last character
unconditionally. -/
theorem C3_counterexample :
    (decode_message initialMachine
      (String.toList "(25.5,100.2,50,75)")).1 = true ∧
    (String.toList "(25.5,100.2,50,75)").head? = some '(' := by
  exact ⟨by decide, by decide⟩

/-- C3 (amended): `decode_message` does not require bracket delimiters; it
strips the first and the last character of the cleaned payload whatever they
are, so the decode outcome on any frame is that of the same frame wrapped in
`[` and `]` instead of its actual first and last characters (for non-blank,
non-NUL delimiters).  A frame without brackets therefore fails only when its
interior fails to split into four parseable fields. -/
theorem C3_decode_delimiter_blind (m : MachineState) (mid : List Char)
    (c1 c2 : Char) (h1 : isSpaceChar c1 = false) (h2 : c1 ≠ nullChar)
    (h3 : isSpaceChar c2 = false) (h4 : c2 ≠ nullChar) :
    decode_message m (c1 :: (mid ++ [c2])) =
      decode_message m ('[' :: (mid ++ [']'])) := by
  have hf : decodeFields (c1 :: (mid ++ [c2])) =
      decodeFields ('[' :: (mid ++ [']'])) := by
    unfold decodeFields
    rw [decodeCleanup_sandwich mid h1 h2 h3 h4,
      decodeCleanup_sandwich mid (by decide) (by decide) (by decide)
        (by decide),
      slice1m1_sandwich, slice1m1_sandwich]
  unfold decode_message
  rw [hf]

/-- C3 witness: wrapping `25.5,100.2,50,75` in parentheses decodes exactly
as wrapping it in brackets does. -/
theorem C3_witness :
    decode_message initialMachine
        ('(' :: (String.toList "25.5,100.2,50,75" ++ [')'])) =
      decode_message initialMachine
        ('[' :: (String.toList "25.5,100.2,50,75" ++ [']'])) :=
  C3_decode_delimiter_blind initialMachine (String.toList "25.5,100.2,50,75")
    '(' ')' (by decide) (by decide) (by decide) (by decide)

/-- C4 counterexample: a connected consumer sending `setFan` with value 150
receives the response status `accepted` — not `error` — because every set
command is dispatched fire-and-forget; running the spawned task then rejects
the out-of-range value inside `Machine.set_fan` with no write attempted
(0 write attempts) and no state change. -/
theorem C4_counterexample :
    (process_command "Connected" "setFan" (some 150)).status = "accepted" ∧
    (process_command "Connected" "setFan" (some 150)).status ≠ "error" ∧
    run_spawned initialMachine true WriteOutcome.ok 0
      (process_command "Connected" "setFan" (some 150)).spawned =
      (false, initialMachine, 0) := by
  refine ⟨rfl, by decide, ?_⟩
  rfl

/-- C4 (amended): a connected consumer sending `setFan` with any value
outside `0..100` receives the response status `accepted` (the command
handler spawns the BLE call fire-and-forget and reports acceptance without
waiting); the range check in `Machine.set_fan` then rejects the value before
any transport write, so no write is attempted and no state changes — but the
rejection is not reflected in the response the consumer received. -/
theorem C4_setFan_out_of_range (m : MachineState) (v : Int) (w : WriteOutcome)
    (now2 : ℚ) (hv : v < 0 ∨ 100 < v) :
    process_command "Connected" "setFan" (some v) =
      ⟨"accepted", some ("set_fan", some v)⟩ ∧
    run_spawned m true w now2 (some ("set_fan", some v)) = (false, m, 0) := by
  constructor
  · rfl
  · show (if true = false then (false, m, 0) else set_fan m true w now2 v) = _
    rw [if_neg (by simp)]
    unfold set_fan
    rw [if_pos]
    rintro ⟨h0, h100⟩
    rcases hv with hv | hv <;> omega

/-- C4 witness: the amended behaviour at value 150. -/
theorem C4_witness :
    process_command "Connected" "setFan" (some 150) =
      ⟨"accepted", some ("set_fan", some 150)⟩ ∧
    run_spawned initialMachine true WriteOutcome.ok 0
      (some ("set_fan", some 150)) = (false, initialMachine, 0) :=
  C4_setFan_out_of_range initialMachine 150 WriteOutcome.ok 0 (by decide)

/-- C5: when the channel write throws, `Machine.send_command` returns
failure, the machine state — in particular `last_command_time` — is exactly
what it was before the call, and exactly one write attempt was made (no
internal retry). -/
theorem C5_send_command_write_failure (m : MachineState) (connected : Bool)
    (now2 : ℚ) (cmd : List Char)
    (hw : pyTruthyStrOpt m.write_characteristic_uuid = true)
    (hc : connected = true) :
    send_command m connected WriteOutcome.throws now2 cmd = (false, m, 1) := by
  unfold send_command
  rw [if_neg (by simp [hw]), if_neg (by simp [hc])]

/-- C5 witness: a machine with a discovered write channel, connected, whose
write throws. -/
theorem C5_witness :
    send_command
      { initialMachine with
        write_characteristic_uuid := some (String.toList "ffe1") }
      true WriteOutcome.throws 7 (String.toList "IO3,50") =
      (false,
        { initialMachine with
          write_characteristic_uuid := some (String.toList "ffe1") }, 1) :=
  C5_send_command_write_failure _ true 7 (String.toList "IO3,50")
    (by decide) rfl

/-- C6: the reconnection backoff delay equals
`min(60, 5 * 1.5 ^ min(failures, 10))`, is monotonically non-decreasing in
the failure count, and never exceeds the cap of 60. -/
theorem C6_backoff_delay_props :
    (∀ n : Nat, backoff_delay n = min 60 (5 * (3 / 2) ^ min n 10)) ∧
    (∀ a b : Nat, a ≤ b → backoff_delay a ≤ backoff_delay b) ∧
    ∀ n : Nat, backoff_delay n ≤ 60 := by
  refine ⟨fun n => rfl, fun a b hab => ?_, fun n => min_le_left _ _⟩
  unfold backoff_delay
  apply min_le_min le_rfl
  apply mul_le_mul_of_nonneg_left _ (by norm_num [reconnection_delay])
  apply pow_le_pow_right (by norm_num)
  exact min_le_min hab le_rfl

/-- C7: every wake of the heartbeat while the session is connected hits the
`self.machine.rate_limiter` attribute, which `Machine` does not define; the
resulting `AttributeError` is caught by the heartbeat's exception handler,
which sets the connection event and thereby terminates the session.  No
heartbeat command is ever sent, and the heartbeat does not keep running —
contrary to the claim (the spec describes the clear intent; the code reads
an attribute from a `Machine` version this repository does not contain,
just as `BLEClient.__init__` calls `Machine(logger)` though
`Machine.__init__` accepts no argument). -/
theorem C7_heartbeat_terminates (m : MachineState) (now : ℚ) :
    heartbeat_step true m now = HeartbeatStep.terminateSession "AttributeError" := rfl

/-- Gathered broadcast unconditionally: the empty-set early return produces
the same pair as the general path. -/
theorem broadcast_eq (clients : List Subscriber) (message : String) :
    broadcast clients message =
      (clients.map (fun c => sendTo c message), clients) := by
  cases clients with
  | nil => rfl
  | cons a t => rfl

/-- C8 counterexample: publishing to two subscribers of which the second
fails still delivers to the first (its send task returns `ok` — the gather
collects exceptions as values and no failure interrupts the others), but the
failed subscriber is NOT removed by the publish operation: the subscriber
set after `broadcast` still contains it, unchanged.  Removal happens only
later, in the failed subscriber's own connection handler. -/
theorem C8_counterexample :
    (broadcast [⟨0, false⟩, ⟨1, true⟩] "update").2 = [⟨0, false⟩, ⟨1, true⟩] ∧
    (broadcast [⟨0, false⟩, ⟨1, true⟩] "update").1 =
      [Except.ok (), Except.error "ConnectionClosed"] :=
  ⟨rfl, rfl⟩

/-- C8 (amended): `broadcast` attempts one send per subscriber, each
outcome depending only on that subscriber (failures are collected as values
by the gather, so one failure neither blocks nor fails the deliveries to the
other subscribers), and it leaves the subscriber set exactly unchanged; the
failed subscriber's removal is not performed by the publish operation but by
that subscriber's connection handler when it terminates. -/
theorem C8_broadcast_behavior (clients : List Subscriber) (message : String) :
    (broadcast clients message).2 = clients ∧
    (broadcast clients message).1 = clients.map (fun c => sendTo c message) ∧
    ∀ c ∈ clients, (sendTo c message = Except.ok () ↔ c.sendFails = false) := by
  rw [broadcast_eq]
  refine ⟨rfl, rfl, ?_⟩
  intro c _
  cases hcf : c.sendFails <;> simp [sendTo, hcf]

/-- C9 counterexample: running the removal path
(`connected_clients.remove`) for a channel that is not in the subscriber set
— channel 0 below, with only channel 1 subscribed — raises `KeyError`
rather than being a safe no-op: Python's `set.remove` raises on a missing
element. -/
theorem C9_counterexample :
    handler_cleanup [1] 0 = Except.error "KeyError" := rfl

/-- C9 (amended): removing a channel that is in the subscriber set succeeds
and removes it, but removing an already-removed channel raises `KeyError` —
the removal path is not a no-op on absent channels.  The code never performs
a double removal in normal operation: each connection handler removes
exactly the channel it added on entry (third conjunct). -/
theorem C9_remove_behavior (s : List Nat) (x : Nat) :
    (x ∈ s → handler_cleanup s x = Except.ok (s.erase x)) ∧
    (x ∉ s → handler_cleanup s x = Except.error "KeyError") ∧
    handler_cleanup (set_add s x) x = Except.ok ((set_add s x).erase x) := by
  refine ⟨fun h => ?_, fun h => ?_, ?_⟩
  · unfold handler_cleanup set_remove
    rw [if_pos h]
  · unfold handler_cleanup set_remove
    rw [if_neg h]
  · have hmem : x ∈ set_add s x := by
      unfold set_add
      split
      · assumption
      · simp
    unfold handler_cleanup set_remove
    rw [if_pos hmem]

/-- C10: once both channel identifiers are set (to the non-empty UUID
strings BLE characteristics carry), every later call of
`discover_characteristics` — with any characteristic list, including the one
enumerated from a new transport handle after a reconnection — leaves both
identifiers unchanged and returns true: the truthiness guards skip every
assignment and the final check sees two non-`None` slots. -/
theorem C10_discover_idempotent (m : MachineState) (chars : List BleChar)
    (u v : List Char) (hn : m.notify_characteristic_uuid = some u)
    (hu : u ≠ []) (hw : m.write_characteristic_uuid = some v) (hv : v ≠ []) :
    discover_characteristics m chars = (true, m) := by
  have hstep : ∀ c, discover_step m c = m := by
    intro c
    have h1 : (if String.toList "notify" ∈ c.props ∧
        pyTruthyStrOpt m.notify_characteristic_uuid = false then
          { m with notify_characteristic_uuid := some c.uuid }
        else m) = m := by
      apply if_neg
      rintro ⟨-, hfa⟩
      rw [hn] at hfa
      simp [pyTruthyStrOpt, hu] at hfa
    simp only [discover_step, h1]
    apply if_neg
    rintro ⟨-, hfa⟩
    rw [hw] at hfa
    simp [pyTruthyStrOpt, hv] at hfa
  have hfold : ∀ l : List BleChar, l.foldl discover_step m = m := by
    intro l
    induction l with
    | nil => rfl
    | cons c t ih => rw [List.foldl_cons, hstep c, ih]
  unfold discover_characteristics
  rw [hfold]
  show (m.notify_characteristic_uuid.isSome &&
    m.write_characteristic_uuid.isSome, m) = (true, m)
  rw [hn, hw]
  rfl

/-- C10 witness: a machine holding the channel pair `1800`/`ffe1` rediscovers
over a fresh characteristic list without changing either identifier. -/
theorem C10_witness :
    discover_characteristics
      { initialMachine with
        notify_characteristic_uuid := some (String.toList "1800"),
        write_characteristic_uuid := some (String.toList "ffe1") }
      [⟨String.toList "2a05",
        [String.toList "notify", String.toList "write"]⟩] =
      (true,
        { initialMachine with
          notify_characteristic_uuid := some (String.toList "1800"),
          write_characteristic_uuid := some (String.toList "ffe1") }) :=
  C10_discover_idempotent _ _ (String.toList "1800") (String.toList "ffe1")
    rfl (by decide) rfl (by decide)
